import Mathlib

set_option maxRecDepth 100000

/-!
Shallow embedding of the NSE ticker search subsystem (`app/services.py`):
the catalog data model, the three-tier indexed search `search_nse_stocks`,
the linear fallback `_search_in_list` (here `search_in_list`), the
loader-facing `fetch_nse_equity_list`, the popular-stock accessor
`get_nse_indices` and the hardcoded default set `get_fallback_stocks`.

Conventions of the embedding:
* Python dicts (`symbolIndex`, `nameIndex`) are association lists in
  insertion order (CPython dicts iterate in insertion order); dict
  membership/lookup is `List.lookup` (dict keys are unique, so the first
  match is the dict entry).
* The Python `set` of accumulated ticker ids is a duplicate-free
  `List Nat`: `set.add` is `setAdd` (no-op on a present element), `len`
  is `List.length`, `sorted(...)` is `List.insertionSort (· ≤ ·)`.
* Python `needle in haystack` on strings is `strContains`, an executable
  substring test on the character lists; `str.lower()` / `str.upper()`
  are the per-character `strLower` / `strUpper`; `str.strip()` is
  `strTrim` (drop whitespace at both ends).
* A JSON object possibly missing a key is an `Option` field;
  `dict.get(k, default)` is `Option.getD`.
* The in-process caches and the `except`-fallbacks for exceptions are not
  modelled: the embedded functions are total and pure, so no exception
  can arise in them.
-/

namespace StocksProj

/-- A `{symbol, name}` result record (what the search functions return
and what `fetch_nse_equity_list` produces). -/
structure Stock where
  symbol : String
  name : String
deriving DecidableEq

/-- One record of the `tickers` array of `nse_tickers_search.json`,
as produced by `create_search_json.py`: `{id, symbol, name, searchTerm}`. -/
structure TickerRec where
  id : Nat
  symbol : String
  name : String
  searchTerm : String
deriving DecidableEq

/-- The parsed `nse_tickers_search.json` structure as `search_nse_stocks`
reads it: every key the code accesses defensively is optional. -/
structure JsonData where
  tickers : Option (List TickerRec)
  symbolIndex : Option (List (String × Nat))
  nameIndex : Option (List (String × List Nat))
deriving DecidableEq

/-- Python `str.lower()`: lowercase each character. -/
def strLower (s : String) : String :=
  ⟨s.data.map Char.toLower⟩

/-- Python `str.upper()`: uppercase each character. -/
def strUpper (s : String) : String :=
  ⟨s.data.map Char.toUpper⟩

/-- Python `str.strip()`: drop whitespace from both ends. -/
def strTrim (s : String) : String :=
  ⟨((s.data.dropWhile Char.isWhitespace).reverse.dropWhile Char.isWhitespace).reverse⟩

/-- `chStarts n h`: the char list `n` is a prefix of `h`. -/
def chStarts : List Char → List Char → Bool
  | [], _ => true
  | _ :: _, [] => false
  | a :: as, b :: bs => a == b && chStarts as bs

/-- `chContains n h`: the char list `n` occurs contiguously inside `h`. -/
def chContains (needle : List Char) : List Char → Bool
  | [] => needle.isEmpty
  | b :: bs => chStarts needle (b :: bs) || chContains needle bs

/-- Python `needle in haystack` on strings: substring test. -/
def strContains (needle haystack : String) : Bool :=
  chContains needle.data haystack.data

/-- Python `set.add` on the accumulated id list, which is kept
duplicate-free: adding a present element is a no-op. -/
def setAdd (s : List Nat) (x : Nat) : List Nat :=
  if x ∈ s then s else s ++ [x]

/-- `get_fallback_stocks` (services.py:266-296): the hardcoded 25-entry
default list. -/
def get_fallback_stocks : List Stock :=
  [ ⟨"RELIANCE", "Reliance Industries Limited"⟩,
    ⟨"TCS", "Tata Consultancy Services Limited"⟩,
    ⟨"HDFCBANK", "HDFC Bank Limited"⟩,
    ⟨"INFY", "Infosys Limited"⟩,
    ⟨"ICICIBANK", "ICICI Bank Limited"⟩,
    ⟨"HINDUNILVR", "Hindustan Unilever Limited"⟩,
    ⟨"SBIN", "State Bank of India"⟩,
    ⟨"BHARTIARTL", "Bharti Airtel Limited"⟩,
    ⟨"ITC", "ITC Limited"⟩,
    ⟨"LT", "Larsen & Toubro Limited"⟩,
    ⟨"WIPRO", "Wipro Limited"⟩,
    ⟨"TITAN", "Titan Company Limited"⟩,
    ⟨"HCLTECH", "HCL Technologies Limited"⟩,
    ⟨"TECHM", "Tech Mahindra Limited"⟩,
    ⟨"AXISBANK", "Axis Bank Limited"⟩,
    ⟨"ULTRACEMCO", "Ultratech Cement Limited"⟩,
    ⟨"ASIANPAINT", "Asian Paints Limited"⟩,
    ⟨"MARUTI", "Maruti Suzuki India Limited"⟩,
    ⟨"BAJAJ-AUTO", "Bajaj Auto Limited"⟩,
    ⟨"DRREDDY", "Dr. Reddy\x27s Laboratories Limited"⟩,
    ⟨"COALINDIA", "Coal India Limited"⟩,
    ⟨"POWERGRID", "Power Grid Corporation of India Limited"⟩,
    ⟨"JSWSTEEL", "JSW Steel Limited"⟩,
    ⟨"TATASTEEL", "Tata Steel Limited"⟩,
    ⟨"DIVISLAB", "Divi\x27s Laboratories Limited"⟩ ]

/-- Projection of a raw ticker record to the `{symbol, name}` dict the
code appends to its result lists. -/
def toEntry (t : TickerRec) : Stock :=
  { symbol := t.symbol, name := t.name }

/-- `fetch_nse_equity_list` (services.py:101-148), with the 12-hour cache
modelled as a pass-through: if the JSON loaded and has a `tickers` key,
project the records to `{symbol, name}`; otherwise return the fallback
list. -/
def fetch_nse_equity_list (json_data : Option JsonData) : List Stock :=
  match json_data with
  | some j =>
    match j.tickers with
    | some tickers => tickers.map toEntry
    | none => get_fallback_stocks
  | none => get_fallback_stocks

/-- Tier 1 of `search_nse_stocks` (services.py:176-181): exact symbol
match on `query.upper()` (note: the code does not trim before
uppercasing), guarded by `ticker_id < len(tickers)`. -/
def tier1 (query : String) (symbol_index : List (String × Nat))
    (numTickers : Nat) (s : List Nat) : List Nat :=
  match List.lookup (strUpper query) symbol_index with
  | some ticker_id =>
    if ticker_id < numTickers then setAdd s ticker_id else s
  | none => s

/-- Tier 2 (services.py:183-188): scan `symbolIndex` in insertion order;
add the id of every symbol whose lowercase form contains `query_lower`;
`break` out of the scan as soon as the set has reached 20 ids (checked
after each add). -/
def tier2 (query_lower : String) : List (String × Nat) → List Nat → List Nat
  | [], s => s
  | (symbol, ticker_id) :: rest, s =>
    if strContains query_lower (strLower symbol) then
      let s2 := setAdd s ticker_id
      if 20 ≤ s2.length then s2 else tier2 query_lower rest s2
    else tier2 query_lower rest s

/-- The inner loop of tier 3 (services.py:193-196): add the ids of one
matching name one at a time; the `break` after the size check exits only
this inner loop. -/
def tier3Inner : List Nat → List Nat → List Nat
  | [], s => s
  | ticker_id :: rest, s =>
    let s2 := setAdd s ticker_id
    if 20 ≤ s2.length then s2 else tier3Inner rest s2

/-- Tier 3 (services.py:190-196): scan `nameIndex` in insertion order;
for every name (keys are already lowercased) containing `query_lower`,
run the inner id loop. The outer scan itself has no early exit. -/
def tier3 (query_lower : String) : List (String × List Nat) → List Nat → List Nat
  | [], s => s
  | (name, ticker_ids) :: rest, s =>
    if strContains query_lower name then
      tier3 query_lower rest (tier3Inner ticker_ids s)
    else tier3 query_lower rest s

/-- The accumulated `results_set` after the three tiers of
`search_nse_stocks` have run on a query (tiers 2/3 use
`query.lower().strip()`, tier 1 the raw `query.upper()`). -/
def accumSet (query : String) (numTickers : Nat)
    (si : List (String × Nat)) (ni : List (String × List Nat)) : List Nat :=
  tier3 (strTrim (strLower query)) ni
    (tier2 (strTrim (strLower query)) si (tier1 query si numTickers []))

/-- One step of the result-building loop (services.py:200-206): a valid
id yields its ticker's `{symbol, name}`, an out-of-range id yields
nothing. -/
def resultEntry (tickers : List TickerRec) (ticker_id : Nat) : Option Stock :=
  if ticker_id < tickers.length then (tickers[ticker_id]?).map toEntry
  else none

/-- The result-building loop (services.py:198-206): iterate
`sorted(results_set)`, keep the in-range ids, map them to entries. -/
def buildResults (results_set : List Nat) (tickers : List TickerRec) : List Stock :=
  (List.insertionSort (· ≤ ·) results_set).filterMap (resultEntry tickers)

/-- The indexed path of `search_nse_stocks` (services.py:169-209):
accumulate ids through the three tiers, build the sorted result list,
return the first 10 entries. -/
def indexedSearch (query : String) (tickers : List TickerRec)
    (si : List (String × Nat)) (ni : List (String × List Nat)) : List Stock :=
  (buildResults (accumSet query tickers.length si ni) tickers).take 10

/-- Whether a stock matches in `_search_in_list` (services.py:230-233):
the (pre-lowercased) query is a substring of the lowercased symbol or of
the lowercased name. -/
def stockMatches (query_lower : String) (stock : Stock) : Bool :=
  strContains query_lower (strLower stock.symbol) ||
    strContains query_lower (strLower stock.name)

/-- The scan loop of `_search_in_list` (services.py:228-238): append each
matching stock; `break` once 10 results have been collected (checked
after each append). -/
def searchLoop (query_lower : String) (results : List Stock) : List Stock → List Stock
  | [] => results
  | stock :: rest =>
    if stockMatches query_lower stock then
      let results2 := results ++ [stock]
      if 10 ≤ results2.length then results2
      else searchLoop query_lower results2 rest
    else searchLoop query_lower results rest

/-- `_search_in_list` (services.py:218-240): the linear fallback scan. -/
def search_in_list (query_lower : String) (nse_stocks : List Stock) : List Stock :=
  if nse_stocks = [] then [] else searchLoop query_lower [] nse_stocks

/-- `search_nse_stocks` (services.py:149-215): guard the empty/whitespace
query, use the indexed path when the JSON and its `tickers` key are
present, otherwise fall back to the linear scan over
`fetch_nse_equity_list`. A missing `symbolIndex`/`nameIndex` key defaults
to the empty mapping (`dict.get(..., {})`), it does not trigger the
fallback. -/
def search_nse_stocks (query : String) (json_data : Option JsonData) : List Stock :=
  if strTrim query = "" then []
  else
    match json_data with
    | none => search_in_list (strTrim (strLower query)) (fetch_nse_equity_list none)
    | some j =>
      match j.tickers with
      | none => search_in_list (strTrim (strLower query)) (fetch_nse_equity_list (some j))
      | some tickers =>
        indexedSearch query tickers (j.symbolIndex.getD []) (j.nameIndex.getD [])

/-- `get_nse_indices` (services.py:243-263): first 25 stocks of
`fetch_nse_equity_list`, or the fallback list when that is empty. -/
def get_nse_indices (json_data : Option JsonData) : List Stock :=
  let all_stocks := fetch_nse_equity_list json_data
  if all_stocks = [] then get_fallback_stocks else all_stocks.take 25

/-- The in-range accumulated ids in ascending order: the ids whose
entries the indexed search emits (before truncation to 10). -/
def validIds (query : String) (tickers : List TickerRec)
    (si : List (String × Nat)) (ni : List (String × List Nat)) : List Nat :=
  (List.insertionSort (· ≤ ·) (accumSet query tickers.length si ni)).filter
    (fun i => i < tickers.length)

/-! Concrete catalogs used to instantiate the theorems below. -/

/-- The two-ticker catalog of the spec's concrete scenario (§8). -/
def tsC1 : List TickerRec :=
  [ ⟨0, "TCS", "Tata Consultancy Services Limited",
      "tcs tata consultancy services limited"⟩,
    ⟨1, "RELIANCE", "Reliance Industries Limited",
      "reliance reliance industries limited"⟩ ]

/-- Symbol index of the two-ticker catalog. -/
def siC1 : List (String × Nat) :=
  [("TCS", 0), ("RELIANCE", 1)]

/-- Name index of the two-ticker catalog. -/
def niC1 : List (String × List Nat) :=
  [("tata consultancy services limited", [0]),
   ("reliance industries limited", [1])]

/-- The two-ticker catalog with both indexes present. -/
def jC1 : JsonData := ⟨some tsC1, some siC1, some niC1⟩

/-- A name index with 21 distinct single-id entries, every name
containing `"aa"`: drives the tier-3 accumulation past the 20-id cap. -/
def niC2 : List (String × List Nat) :=
  (List.range 21).map (fun i => (String.append "aa" (toString i), [i]))

/-- A symbol index whose 20 first symbols all contain `"tcs"` (ids 1-20)
and whose last entry is the exact symbol `"TCS"` with id 0. -/
def siC3 : List (String × Nat) :=
  ((List.range 20).map (fun i => (String.append "TCS" (toString i), i + 1))) ++
    [("TCS", 0)]

/-- A catalog whose JSON has a ticker list but neither index mapping. -/
def jC6 : JsonData :=
  ⟨some [⟨0, "TCS", "Tata Consultancy Services Limited",
    "tcs tata consultancy services limited"⟩], none, none⟩

/-- Eleven tickers: ids 0-9 have symbols `AAB0`..`AAB9`, id 10 has the
exact symbol `AAB`. -/
def tsC10 : List TickerRec :=
  ((List.range 10).map (fun i =>
    ⟨i, String.append "AAB" (toString i),
      String.append "Aab Ltd " (toString i), ""⟩)) ++
    [⟨10, "AAB", "Aab Ltd", ""⟩]

/-- Symbol index for `tsC10`, the exact symbol `AAB` last. -/
def siC10 : List (String × Nat) :=
  ((List.range 10).map (fun i => (String.append "AAB" (toString i), i))) ++
    [("AAB", 10)]

/-- The eleven-ticker catalog with an empty name index. -/
def jC10 : JsonData := ⟨some tsC10, some siC10, some []⟩

/-- A one-ticker catalog used to instantiate hypotheses. -/
def tsW : List TickerRec :=
  [⟨0, "TCS", "Tata Consultancy Services Limited", "t"⟩]

/-! Helper lemmas about the embedded primitives. -/

/-- The empty char list occurs in every char list (Python `"" in s`). -/
theorem chContains_nil (l : List Char) : chContains [] l = true := by
  cases l <;> simp [chContains, chStarts, List.isEmpty]

/-- The empty query matches every stock in the linear scan. -/
theorem stockMatches_empty (stock : Stock) : stockMatches "" stock = true := by
  unfold stockMatches strContains
  rw [show ("" : String).data = [] from rfl, chContains_nil]
  rfl

/-- `setAdd` puts its element in the set. -/
theorem mem_setAdd_self (s : List Nat) (x : Nat) : x ∈ setAdd s x := by
  unfold setAdd
  split
  · assumption
  · simp

/-- `setAdd` keeps the existing elements. -/
theorem mem_setAdd_of_mem {s : List Nat} {y : Nat} (h : y ∈ s) (x : Nat) :
    y ∈ setAdd s x := by
  unfold setAdd
  split
  · exact h
  · simp [h]

/-- `setAdd` preserves duplicate-freeness. -/
theorem setAdd_nodup {s : List Nat} (h : s.Nodup) (x : Nat) :
    (setAdd s x).Nodup := by
  unfold setAdd
  split
  · exact h
  · next hx => simp [List.nodup_append, h, hx]

/-- Tier 2 never removes an element from the set. -/
theorem mem_tier2 (q : String) :
    ∀ (si : List (String × Nat)) {s : List Nat} {y : Nat},
      y ∈ s → y ∈ tier2 q si s := by
  intro si
  induction si with
  | nil => intro s y h; simpa [tier2] using h
  | cons p rest ih =>
    intro s y h
    obtain ⟨sym, tid⟩ := p
    simp only [tier2]
    split
    · split
      · exact mem_setAdd_of_mem h tid
      · exact ih (mem_setAdd_of_mem h tid)
    · exact ih h

/-- The tier-3 inner loop never removes an element from the set. -/
theorem mem_tier3Inner :
    ∀ (tids : List Nat) {s : List Nat} {y : Nat},
      y ∈ s → y ∈ tier3Inner tids s := by
  intro tids
  induction tids with
  | nil => intro s y h; simpa [tier3Inner] using h
  | cons tid rest ih =>
    intro s y h
    simp only [tier3Inner]
    split
    · exact mem_setAdd_of_mem h tid
    · exact ih (mem_setAdd_of_mem h tid)

/-- Tier 3 never removes an element from the set. -/
theorem mem_tier3 (q : String) :
    ∀ (ni : List (String × List Nat)) {s : List Nat} {y : Nat},
      y ∈ s → y ∈ tier3 q ni s := by
  intro ni
  induction ni with
  | nil => intro s y h; simpa [tier3] using h
  | cons p rest ih =>
    intro s y h
    obtain ⟨name, tids⟩ := p
    simp only [tier3]
    split
    · exact ih (mem_tier3Inner tids h)
    · exact ih h

/-- Tier 1 preserves duplicate-freeness. -/
theorem tier1_nodup (q : String) (si : List (String × Nat)) (n : Nat)
    {s : List Nat} (h : s.Nodup) : (tier1 q si n s).Nodup := by
  unfold tier1
  split
  · split
    · exact setAdd_nodup h _
    · exact h
  · exact h

/-- Tier 2 preserves duplicate-freeness. -/
theorem tier2_nodup (q : String) :
    ∀ (si : List (String × Nat)) {s : List Nat}, s.Nodup → (tier2 q si s).Nodup := by
  intro si
  induction si with
  | nil => intro s h; simpa [tier2] using h
  | cons p rest ih =>
    intro s h
    obtain ⟨sym, tid⟩ := p
    simp only [tier2]
    split
    · split
      · exact setAdd_nodup h tid
      · exact ih (setAdd_nodup h tid)
    · exact ih h

/-- The tier-3 inner loop preserves duplicate-freeness. -/
theorem tier3Inner_nodup :
    ∀ (tids : List Nat) {s : List Nat}, s.Nodup → (tier3Inner tids s).Nodup := by
  intro tids
  induction tids with
  | nil => intro s h; simpa [tier3Inner] using h
  | cons tid rest ih =>
    intro s h
    simp only [tier3Inner]
    split
    · exact setAdd_nodup h tid
    · exact ih (setAdd_nodup h tid)

/-- Tier 3 preserves duplicate-freeness. -/
theorem tier3_nodup (q : String) :
    ∀ (ni : List (String × List Nat)) {s : List Nat}, s.Nodup → (tier3 q ni s).Nodup := by
  intro ni
  induction ni with
  | nil => intro s h; simpa [tier3] using h
  | cons p rest ih =>
    intro s h
    obtain ⟨name, tids⟩ := p
    simp only [tier3]
    split
    · exact ih (tier3Inner_nodup tids h)
    · exact ih h

/-- The accumulated id set is duplicate-free (it starts empty and only
grows through `setAdd`). -/
theorem accumSet_nodup (q : String) (n : Nat) (si : List (String × Nat))
    (ni : List (String × List Nat)) : (accumSet q n si ni).Nodup :=
  tier3_nodup _ ni (tier2_nodup _ si (tier1_nodup _ si n List.nodup_nil))

/-- The guard in `resultEntry` is redundant: an out-of-range index
already yields `none` through `getElem?`. -/
theorem resultEntry_eq (tickers : List TickerRec) :
    resultEntry tickers = fun i => (tickers[i]?).map toEntry := by
  funext i
  unfold resultEntry
  split
  · rfl
  · rw [List.getElem?_eq_none (by omega)]
    rfl

/-- Dropping the out-of-range ids first does not change the built
entries. -/
theorem filterMap_entry_filter (tickers : List TickerRec) (l : List Nat) :
    l.filterMap (fun i => (tickers[i]?).map toEntry) =
      (l.filter (fun i => i < tickers.length)).filterMap
        (fun i => (tickers[i]?).map toEntry) := by
  induction l with
  | nil => rfl
  | cons a l ih =>
    by_cases h : a < tickers.length
    · have hsome : tickers[a]? = some tickers[a] := List.getElem?_eq_getElem h
      simp [List.filterMap_cons, List.filter_cons, h, hsome, ih]
    · have hnone : tickers[a]? = none := List.getElem?_eq_none (by omega)
      simp [List.filterMap_cons, List.filter_cons, h, hnone, ih]

/-- The result-building loop equals: sort, keep the in-range ids, map
them to their `{symbol, name}` entries. -/
theorem buildResults_eq (s : List Nat) (tickers : List TickerRec) :
    buildResults s tickers =
      ((List.insertionSort (· ≤ ·) s).filter (fun i => i < tickers.length)).filterMap
        (fun i => (tickers[i]?).map toEntry) := by
  unfold buildResults
  rw [resultEntry_eq, filterMap_entry_filter]

/-- Sorting commutes with filtering. -/
theorem insertionSort_filter (l : List Nat) (p : Nat → Bool) :
    (List.insertionSort (· ≤ ·) l).filter p =
      List.insertionSort (· ≤ ·) (l.filter p) := by
  apply List.eq_of_perm_of_sorted (r := fun a b => a ≤ b)
  · exact ((List.perm_insertionSort _ l).filter p).trans
      (List.perm_insertionSort _ (l.filter p)).symm
  · exact (List.sorted_insertionSort _ l).filter p
  · exact List.sorted_insertionSort _ (l.filter p)

/-- The scan loop of `_search_in_list` collects, in order, the first
matching stocks up to the remaining budget. -/
theorem searchLoop_eq (query_lower : String) :
    ∀ (l : List Stock) (acc : List Stock), acc.length < 10 →
      searchLoop query_lower acc l =
        acc ++ (l.filter (stockMatches query_lower)).take (10 - acc.length) := by
  intro l
  induction l with
  | nil => intro acc h; simp [searchLoop]
  | cons stock rest ih =>
    intro acc h
    by_cases hm : stockMatches query_lower stock
    · simp only [searchLoop, hm, if_true, List.filter_cons]
      by_cases hfull : 10 ≤ (acc ++ [stock]).length
      · have hlen : acc.length = 9 := by
          simp only [List.length_append, List.length_singleton] at hfull
          omega
        rw [if_pos hfull]
        have h10 : 10 - acc.length = 1 := by omega
        simp [hlen]
      · rw [if_neg hfull]
        have hlt : (acc ++ [stock]).length < 10 := by omega
        rw [ih (acc ++ [stock]) hlt]
        have harith : 10 - acc.length = (10 - (acc ++ [stock]).length) + 1 := by
          simp only [List.length_append, List.length_singleton]
          simp only [List.length_append, List.length_singleton] at hfull
          omega
        simp [harith, List.take_succ_cons]
    · simp only [searchLoop, hm, if_false, List.filter_cons]
      rw [ih acc h]
      simp [hm]

/-! Claim theorems. -/

/-- C1: for every query that is non-empty after trimming and every
loaded catalog with a ticker list and both indexes, the indexed search
returns at most 10 `{symbol, name}` entries; the underlying id list
(`validIds`) is strictly ascending (hence deduplicated by ticker id),
each id maps back to its ticker's symbol and name, and the output is
that mapped list truncated to the first 10 entries. -/
theorem search_indexed_bounded_sorted
    (j : JsonData) (tickers : List TickerRec) (si : List (String × Nat))
    (ni : List (String × List Nat)) (q : String)
    (ht : j.tickers = some tickers) (hsi : j.symbolIndex = some si)
    (hni : j.nameIndex = some ni) (hq : strTrim q ≠ "") :
    (search_nse_stocks q (some j)).length ≤ 10 ∧
    List.Sorted (· < ·) (validIds q tickers si ni) ∧
    (validIds q tickers si ni).Nodup ∧
    search_nse_stocks q (some j) =
      ((validIds q tickers si ni).filterMap
        (fun i => (tickers[i]?).map toEntry)).take 10 := by
  obtain ⟨tk, sio, nio⟩ := j
  obtain rfl : tk = some tickers := ht
  obtain rfl : sio = some si := hsi
  obtain rfl : nio = some ni := hni
  have hsearch : search_nse_stocks q (some ⟨some tickers, some si, some ni⟩) =
      (buildResults (accumSet q tickers.length si ni) tickers).take 10 := by
    unfold search_nse_stocks
    rw [if_neg hq]
    rfl
  have hnodup : (List.insertionSort (· ≤ ·) (accumSet q tickers.length si ni)).Nodup :=
    (List.perm_insertionSort (fun a b => a ≤ b) _).symm.nodup
      (accumSet_nodup q tickers.length si ni)
  have hsortlt : List.Sorted (· < ·)
      (List.insertionSort (· ≤ ·) (accumSet q tickers.length si ni)) :=
    (List.sorted_insertionSort _ _).lt_of_le hnodup
  refine ⟨?_, ?_, ?_, ?_⟩
  · rw [hsearch]
    exact List.length_take_le _ _
  · exact hsortlt.filter _
  · exact hnodup.filter _
  · rw [hsearch, buildResults_eq]
    rfl

/-- Witness for C1 at the spec's concrete two-ticker catalog and the
query `"tcs"`. -/
theorem search_indexed_bounded_sorted_witness :
    strTrim "tcs" ≠ "" ∧
    ((search_nse_stocks "tcs" (some jC1)).length ≤ 10 ∧
      List.Sorted (· < ·) (validIds "tcs" tsC1 siC1 niC1) ∧
      (validIds "tcs" tsC1 siC1 niC1).Nodup ∧
      search_nse_stocks "tcs" (some jC1) =
        ((validIds "tcs" tsC1 siC1 niC1).filterMap
          (fun i => (tsC1[i]?).map toEntry)).take 10) :=
  ⟨by decide, search_indexed_bounded_sorted jC1 tsC1 siC1 niC1 "tcs" rfl rfl rfl (by decide)⟩

/-- C2 fails on the code: in tier 3 the cap check `break`s only out of
the inner per-name id loop, while the outer scan over `nameIndex` keeps
going and adds one more id per later matching name. On a name index of
21 matching single-id entries, the accumulated (duplicate-free) set ends
with 21 ids, exceeding the 20-id cap. -/
theorem tier3_cap_exceeded_bug :
    (accumSet "aa" 0 [] niC2).length = 21 ∧
    20 < (accumSet "aa" 0 [] niC2).length ∧
    (accumSet "aa" 0 [] niC2).Nodup := by decide

/-- C3 counterexample: the code uppercases the query *untrimmed*
(`query.upper()`), so for the padded query `" TCS "` whose trimmed,
uppercased form `"TCS"` is a key of the symbol index (mapping to the
in-range id 0), tier 1 misses, and tier 2's cap fills the set with 20
other ids before the `"TCS"` entry is reached: id 0 is not in the
accumulated set. -/
theorem tier1_untrimmed_cex :
    strUpper (strTrim " TCS ") = "TCS" ∧
    List.lookup "TCS" siC3 = some 0 ∧
    0 < 21 ∧
    0 ∉ accumSet " TCS " 21 siC3 [] := by decide

/-- C3 (amended): for every query whose *untrimmed* uppercased form is a
key of `symbolIndex` mapping to an in-range ticker id, tier 1 adds that
id before tiers 2 and 3 run, and since ids are never removed, the exact
symbol match is in the accumulated set regardless of the 20-id cap. -/
theorem exact_symbol_in_accumulated_set
    (q : String) (n : Nat) (si : List (String × Nat))
    (ni : List (String × List Nat)) (tid : Nat)
    (hlook : List.lookup (strUpper q) si = some tid) (hr : tid < n) :
    tid ∈ accumSet q n si ni := by
  unfold accumSet
  apply mem_tier3
  apply mem_tier2
  unfold tier1
  rw [hlook]
  show tid ∈ if tid < n then setAdd [] tid else []
  rw [if_pos hr]
  exact mem_setAdd_self _ _

/-- Witness for the amended C3. -/
theorem exact_symbol_in_accumulated_set_witness :
    List.lookup (strUpper "tcs") [("TCS", 0)] = some 0 ∧ 0 < 1 ∧
    0 ∈ accumSet "tcs" 1 [("TCS", 0)] [] :=
  ⟨by decide, by decide,
    exact_symbol_in_accumulated_set "tcs" 1 [("TCS", 0)] [] 0 (by decide) (by decide)⟩

/-- C4: the linear fallback returns exactly the first matching tickers
in the input list's order — a ticker matches iff the (lowercased) query
is a substring of its lowercased symbol or lowercased name — the scan
stops at 10 matches (so at most 10 results), and the empty ticker list
yields the empty result. -/
theorem linear_search_spec (query_lower : String) (stocks : List Stock) :
    search_in_list query_lower stocks =
      (stocks.filter (stockMatches query_lower)).take 10 ∧
    (search_in_list query_lower stocks).length ≤ 10 ∧
    search_in_list query_lower [] = [] := by
  have hmain : search_in_list query_lower stocks =
      (stocks.filter (stockMatches query_lower)).take 10 := by
    unfold search_in_list
    split
    · next h => subst h; rfl
    · next h =>
      rw [searchLoop_eq query_lower stocks [] (by simp)]
      simp
  refine ⟨hmain, ?_, rfl⟩
  rw [hmain]
  exact List.length_take_le _ _

/-- C5 counterexample: with no JSON data loadable, the search for
`"reliance"` returns the match from the hardcoded fallback list — not
the empty result the claim asserts. -/
theorem search_no_json_nonempty_cex :
    search_nse_stocks "reliance" none =
      [⟨"RELIANCE", "Reliance Industries Limited"⟩] ∧
    search_nse_stocks "reliance" none ≠ [] := by decide

/-- C5 (amended): when the loader can produce no JSON data, search does
not return empty: it falls back to the linear scan over the hardcoded
(never empty) default stock list; only the empty/whitespace query yields
the empty result on that path. -/
theorem search_no_json_scans_fallback (q : String) :
    search_nse_stocks q none =
      (if strTrim q = "" then []
       else search_in_list (strTrim (strLower q)) get_fallback_stocks) ∧
    get_fallback_stocks ≠ [] :=
  ⟨rfl, by decide⟩

/-- C6 counterexample: a catalog whose JSON has the ticker list but
neither index mapping. The linear fallback over the flat ticker list
would return the `TCS` ticker for the query `"tcs"`, but the code stays
on the indexed path with both indexes defaulted to empty and returns
nothing — it does not degrade to the linear scan. -/
theorem missing_index_no_linear_cex :
    search_nse_stocks "tcs" (some jC6) = [] ∧
    search_in_list "tcs" (fetch_nse_equity_list (some jC6)) =
      [⟨"TCS", "Tata Consultancy Services Limited"⟩] ∧
    search_nse_stocks "tcs" (some jC6) ≠
      search_in_list "tcs" (fetch_nse_equity_list (some jC6)) := by decide

/-- C6 (amended): search degrades to the linear fallback only when the
JSON data or its `tickers` key is missing; when tickers are present but
`symbolIndex` or `nameIndex` is missing, the indexed engine still runs
with the missing index defaulted to the empty mapping. -/
theorem fallback_only_without_tickers
    (q : String) (j j2 : JsonData) (tickers : List TickerRec)
    (hq : strTrim q ≠ "") (ht : j.tickers = some tickers)
    (ht2 : j2.tickers = none) :
    search_nse_stocks q (some j) =
      indexedSearch q tickers (j.symbolIndex.getD []) (j.nameIndex.getD []) ∧
    search_nse_stocks q (some j2) =
      search_in_list (strTrim (strLower q)) (fetch_nse_equity_list (some j2)) := by
  obtain ⟨tk, sio, nio⟩ := j
  obtain rfl : tk = some tickers := ht
  obtain ⟨tk2, sio2, nio2⟩ := j2
  obtain rfl : tk2 = none := ht2
  constructor
  · unfold search_nse_stocks
    rw [if_neg hq]
  · unfold search_nse_stocks
    rw [if_neg hq]

/-- Witness for the amended C6. -/
theorem fallback_only_without_tickers_witness :
    strTrim "tcs" ≠ "" ∧
    search_nse_stocks "tcs" (some jC6) =
      indexedSearch "tcs"
        [⟨0, "TCS", "Tata Consultancy Services Limited",
          "tcs tata consultancy services limited"⟩]
        (jC6.symbolIndex.getD []) (jC6.nameIndex.getD []) ∧
    search_nse_stocks "tcs" (some ⟨none, none, none⟩) =
      search_in_list (strTrim (strLower "tcs"))
        (fetch_nse_equity_list (some ⟨none, none, none⟩)) := by
  refine ⟨by decide, ?_, ?_⟩
  · exact (fallback_only_without_tickers "tcs" jC6 ⟨none, none, none⟩ _
      (by decide) rfl rfl).1
  · exact (fallback_only_without_tickers "tcs" jC6 ⟨none, none, none⟩ _
      (by decide) rfl rfl).2

/-- C7 counterexample: the linear fallback called directly with the
empty query matches every stock (Python `"" in s` is true), so on a
non-empty ticker list it does not return the empty sequence. -/
theorem linear_search_empty_query_cex :
    search_in_list "" [⟨"TCS", "Tata Consultancy Services Limited"⟩] =
      [⟨"TCS", "Tata Consultancy Services Limited"⟩] ∧
    search_in_list "" [⟨"TCS", "Tata Consultancy Services Limited"⟩] ≠ [] := by
  decide

/-- C7 (amended): a query empty after trimming makes `search` return
the empty sequence immediately for every catalog; the linear fallback
on the empty query instead returns the first (up to 10) tickers of the
list, because the empty string is a substring of everything. -/
theorem empty_query_results :
    (∀ (q : String) (jd : Option JsonData),
      strTrim q = "" → search_nse_stocks q jd = []) ∧
    (∀ l : List Stock, search_in_list "" l = l.take 10) := by
  constructor
  · intro q jd h
    unfold search_nse_stocks
    rw [if_pos h]
  · intro l
    unfold search_in_list
    split
    · next h => subst h; rfl
    · next h =>
      rw [searchLoop_eq "" l [] (by simp)]
      have hall : l.filter (stockMatches "") = l :=
        List.filter_eq_self.mpr (fun a _ => stockMatches_empty a)
      simp [hall]

/-- Witness for the amended C7. -/
theorem empty_query_results_witness :
    strTrim "   " = "" ∧
    search_nse_stocks "   " none = [] ∧
    search_in_list "" [⟨"TCS", "T"⟩] = [⟨"TCS", "T"⟩] := by
  refine ⟨by decide, empty_query_results.1 "   " none (by decide), ?_⟩
  have h := empty_query_results.2 [⟨"TCS", "T"⟩]
  simpa using h

/-- C8: an accumulated ticker id that is out of range for the ticker
list is skipped silently while building results — adding it changes
nothing — and every in-range accumulated id still contributes its
ticker's `{symbol, name}` entry; the builder is a total function, so no
error is ever raised. -/
theorem invalid_ids_skipped
    (s : List Nat) (jx : Nat) (tickers : List TickerRec)
    (hj : tickers.length ≤ jx) :
    buildResults (setAdd s jx) tickers = buildResults s tickers ∧
    ∀ i ∈ s, ∀ h : i < tickers.length,
      toEntry tickers[i] ∈ buildResults s tickers := by
  constructor
  · unfold setAdd
    split
    · rfl
    · rw [buildResults_eq, buildResults_eq, insertionSort_filter,
        insertionSort_filter, List.filter_append]
      have hp : ¬ jx < tickers.length := by omega
      simp [hp]
  · intro i hi h
    unfold buildResults
    apply List.mem_filterMap.mpr
    refine ⟨i, ?_, ?_⟩
    · exact ((List.perm_insertionSort (fun a b => a ≤ b) s).mem_iff).mpr hi
    · unfold resultEntry
      rw [if_pos h, List.getElem?_eq_getElem h]
      rfl

/-- Witness for C8: adding the out-of-range id 5 to the set `{0}` over a
one-ticker list changes nothing, and the valid id 0 still yields its
entry. -/
theorem invalid_ids_skipped_witness :
    tsW.length ≤ 5 ∧
    buildResults (setAdd [0] 5) tsW = buildResults [0] tsW ∧
    toEntry (⟨0, "TCS", "Tata Consultancy Services Limited", "t"⟩ : TickerRec) ∈
      buildResults [0] tsW := by
  refine ⟨by decide, (invalid_ids_skipped [0] 5 tsW (by decide)).1, ?_⟩
  exact (invalid_ids_skipped [0] 5 tsW (by decide)).2 0 (by decide) (by decide)

/-- C9: with a catalog (non-empty ticker list) available,
`get_nse_indices` returns its first 25 `{symbol, name}` entries; with no
catalog it returns exactly the fixed 25-entry hardcoded default set,
which starts with RELIANCE, ends with DIVISLAB, and — being a constant
list returned by a pure function — is identical on every call. -/
theorem popular_stocks_spec
    (j : JsonData) (tickers : List TickerRec)
    (ht : j.tickers = some tickers) (hne : tickers ≠ []) :
    get_nse_indices (some j) = (tickers.map toEntry).take 25 ∧
    get_nse_indices none = get_fallback_stocks ∧
    get_fallback_stocks.length = 25 ∧
    get_fallback_stocks.head? = some ⟨"RELIANCE", "Reliance Industries Limited"⟩ ∧
    get_fallback_stocks.getLast? =
      some ⟨"DIVISLAB", "Divi\x27s Laboratories Limited"⟩ := by
  obtain ⟨tk, sio, nio⟩ := j
  obtain rfl : tk = some tickers := ht
  refine ⟨?_, by decide, by decide, by decide, by decide⟩
  show (if tickers.map toEntry = [] then get_fallback_stocks
    else (tickers.map toEntry).take 25) = (tickers.map toEntry).take 25
  rw [if_neg (by simpa using hne)]

/-- Witness for C9 at a one-ticker catalog. -/
theorem popular_stocks_spec_witness :
    ((⟨some tsW, none, none⟩ : JsonData).tickers = some tsW) ∧ tsW ≠ [] ∧
    get_nse_indices (some ⟨some tsW, none, none⟩) = (tsW.map toEntry).take 25 :=
  ⟨rfl, by decide, (popular_stocks_spec ⟨some tsW, none, none⟩ tsW rfl (by decide)).1⟩

/-- C10: a concrete catalog where the tier-1 exact symbol match (id 10,
symbol `AAB`) is accumulated but absent from the final output: the ten
partial matches with smaller ids fill the id-sorted, 10-truncated result
list. -/
theorem exact_match_truncated_out :
    List.lookup (strUpper "AAB") siC10 = some 10 ∧
    10 ∈ accumSet "AAB" tsC10.length siC10 [] ∧
    (search_nse_stocks "AAB" (some jC10)).length = 10 ∧
    (⟨"AAB", "Aab Ltd"⟩ : Stock) ∉ search_nse_stocks "AAB" (some jC10) := by
  decide

end StocksProj
